import Mathlib

/-!
Shallow embedding of `backend/main.py` (Leaf AI backend): the `/analyze`
handler, its input validation, filename derivation, prompt resolution,
upstream error mapping, best-effort response extraction, and the
`clean_model_text` post-processing step.

Strings are modelled as Lean `String` / `List Char`.  The regular
expressions used by `clean_model_text` are fixed concrete patterns; each
is embedded as the deterministic matcher it denotes (leftmost match,
greedy `\s*`/`\s+` runs — deterministic here because whitespace and the
following literal letters are disjoint — non-greedy dotall `.*?` up to
`\n\n` or `$`).  Whitespace classes (`str.strip`, regex `\s`) and word
characters (`\w`) are modelled by their ASCII subsets; the Python
originals also accept further Unicode characters, which no claim here
depends on.
-/

namespace LeafAI

/-- ASCII whitespace as recognised by Python's `str.strip` and the ASCII
part of the regex class `\s`. -/
def isPySpace (c : Char) : Bool :=
  c = ' ' || c = '\t' || c = '\n' || c = '\r' || c = '\x0b' || c = '\x0c'

/-- ASCII word characters (the ASCII part of the regex class `\w`),
used for the `\b` boundary in the third meta pattern. -/
def isWordChar (c : Char) : Bool :=
  ('a' ≤ c && c ≤ 'z') || ('A' ≤ c && c ≤ 'Z') || ('0' ≤ c && c ≤ '9') || c = '_'

/-- ASCII lower-casing, used for the case-insensitive (`(?i)`) matches. -/
def asciiLower (c : Char) : Char :=
  if 'A' ≤ c && c ≤ 'Z' then Char.ofNat (c.toNat + 32) else c

/-- Drop trailing ASCII whitespace (the right half of `str.strip`). -/
def dropTrailingWs : List Char → List Char
  | [] => []
  | c :: rest =>
    match dropTrailingWs rest with
    | [] => if isPySpace c then [] else [c]
    | r => c :: r

/-- Python `str.strip()` on character lists (ASCII whitespace). -/
def pyStripL (l : List Char) : List Char :=
  dropTrailingWs (l.dropWhile isPySpace)

/-- Python `str.strip()`. -/
def pyStrip (s : String) : String := ⟨pyStripL s.data⟩

/-- Does `tag` (given lower-case) occur case-insensitively at the head of
the list? -/
def startsWithCI : List Char → List Char → Bool
  | [], _ => true
  | _ :: _, [] => false
  | t :: ts, c :: cs => (asciiLower c = t) && startsWithCI ts cs

/-- Find the leftmost case-insensitive occurrence of `tag`; return the
characters before it and the characters after it. -/
def splitTagCI (tag : List Char) : List Char → Option (List Char × List Char)
  | [] => none
  | c :: cs =>
    if startsWithCI tag (c :: cs) then some ([], (c :: cs).drop tag.length)
    else
      match splitTagCI tag cs with
      | some (pre, post) => some (c :: pre, post)
      | none => none

def openTag : List Char := ['<', 't', 'h', 'i', 'n', 'k', '>']

def closeTag : List Char := ['<', '/', 't', 'h', 'i', 'n', 'k', '>']

/-- `re.sub(r"(?is)<think>.*?</think>", "", text)`: repeatedly remove the
leftmost `<think>` together with the nearest following `</think>`
(non-greedy), continuing after the removed block.  Fuel-indexed for
structural recursion; each step removes at least the two tags, so
`fuel = length` always suffices. -/
def removeThinkAux : Nat → List Char → List Char
  | 0, l => l
  | fuel + 1, l =>
    match splitTagCI openTag l with
    | none => l
    | some (pre, rest) =>
      match splitTagCI closeTag rest with
      | none => l
      | some (_, post) => pre ++ removeThinkAux fuel post

def removeThink (l : List Char) : List Char := removeThinkAux l.length l

/-- The non-greedy dotall tail `.*?(?:\n\n|$)` of each meta pattern
(no `re.M`, so `$` means end of string or just before a final newline):
scan forward to the first `\n\n` (consumed) or to `$`; return what the
match leaves behind. -/
def tailRest : List Char → List Char
  | '\n' :: '\n' :: rest => rest
  | ['\n'] => ['\n']
  | [] => []
  | _ :: rest => tailRest rest

/-- Case-insensitive literal match at the head; returns the remainder on
success. -/
def matchLitCI : List Char → List Char → Option (List Char)
  | [], l => some l
  | _ :: _, [] => none
  | t :: ts, c :: cs => if asciiLower c = t then matchLitCI ts cs else none

/-- Regex `\s+` (greedy): require at least one whitespace character and
consume the whole run. -/
def matchWs1 : List Char → Option (List Char)
  | [] => none
  | c :: cs => if isPySpace c then some (cs.dropWhile isPySpace) else none

/-- Regex `\b` after a word character: succeeds iff the next character is
not a word character (or we are at the end). -/
def atWordBoundary : List Char → Bool
  | [] => true
  | c :: _ => !isWordChar c

/-- `(?is)^\s*the\s+user\s+is\s+asking\s+me.*?(?:\n\n|$)`. Returns the
remainder of the string after the match, or `none` if the pattern does
not match at the start. -/
def meta1Match (l : List Char) : Option (List Char) := do
  let l := l.dropWhile isPySpace
  let l ← matchLitCI "the".data l
  let l ← matchWs1 l
  let l ← matchLitCI "user".data l
  let l ← matchWs1 l
  let l ← matchLitCI "is".data l
  let l ← matchWs1 l
  let l ← matchLitCI "asking".data l
  let l ← matchWs1 l
  let l ← matchLitCI "me".data l
  pure (tailRest l)

/-- `(?is)^\s*i\s+can\s+see\s+the\s+image.*?(?:\n\n|$)`. -/
def meta2Match (l : List Char) : Option (List Char) := do
  let l := l.dropWhile isPySpace
  let l ← matchLitCI "i".data l
  let l ← matchWs1 l
  let l ← matchLitCI "can".data l
  let l ← matchWs1 l
  let l ← matchLitCI "see".data l
  let l ← matchWs1 l
  let l ← matchLitCI "the".data l
  let l ← matchWs1 l
  let l ← matchLitCI "image".data l
  pure (tailRest l)

/-- `(?is)^\s*i\s+should\b.*?(?:\n\n|$)`. -/
def meta3Match (l : List Char) : Option (List Char) := do
  let l := l.dropWhile isPySpace
  let l ← matchLitCI "i".data l
  let l ← matchWs1 l
  let l ← matchLitCI "should".data l
  if atWordBoundary l then pure (tailRest l) else none

/-- `(?is)^\s*based\s+on\s+the\s+.*?(?:\n\n|$)`.  The trailing `\s+` is
greedy and always precedes the dotall tail, which always succeeds, so it
deterministically consumes the whole whitespace run. -/
def meta4Match (l : List Char) : Option (List Char) := do
  let l := l.dropWhile isPySpace
  let l ← matchLitCI "based".data l
  let l ← matchWs1 l
  let l ← matchLitCI "on".data l
  let l ← matchWs1 l
  let l ← matchLitCI "the".data l
  let l ← matchWs1 l
  pure (tailRest l)

/-- `re.sub(pat, "", text)` for a pattern anchored at the start by `^`
(no `re.M`): at most one match, replaced by the empty string. -/
def applyMeta (m : List Char → Option (List Char)) (l : List Char) : List Char :=
  match m l with
  | some rest => rest
  | none => l

/-- `re.sub(r"\n{3,}", "\n\n", text)`: each maximal run of three or more
newlines collapses to exactly two (while three consecutive newlines
remain at the head, drop one).  Fuel-indexed; each step shortens the
list by exactly one, so `fuel = length` suffices. -/
def collapseNlAux : Nat → List Char → List Char
  | 0, l => l
  | fuel + 1, l =>
    match l with
    | [] => []
    | c :: rest =>
      if (c == '\n') && (rest.take 2 == ['\n', '\n']) then collapseNlAux fuel rest
      else c :: collapseNlAux fuel rest

def collapseNl (l : List Char) : List Char := collapseNlAux l.length l

/-- Does the list contain three consecutive newlines (a `\n{3,}` match)? -/
def hasTriple : List Char → Bool
  | [] => false
  | c :: rest => ((c == '\n') && (rest.take 2 == ['\n', '\n'])) || hasTriple rest

/-- `clean_model_text` from `backend/main.py` on character lists:
`<think>` removal, the four meta-preamble patterns in order, newline
collapsing, and `str.strip`. -/
def cleanL (l : List Char) : List Char :=
  let l := removeThink l
  let l := applyMeta meta1Match l
  let l := applyMeta meta2Match l
  let l := applyMeta meta3Match l
  let l := applyMeta meta4Match l
  pyStripL (collapseNl l)

/-- `clean_model_text` on strings (the `str` branch; a non-`str` argument
returns `""`, see `cleanJson`). -/
def clean_model_text (s : String) : String := ⟨cleanL s.data⟩

/-! ## JSON values and the best-effort response extraction -/

/-- JSON values as decoded by `resp.json()` (numbers modelled as
integers; no claim depends on fractional values). -/
inductive Json where
  | null
  | bool (b : Bool)
  | num (n : Int)
  | str (s : String)
  | arr (xs : List Json)
  | obj (kvs : List (String × Json))

/-- Python truthiness of a decoded JSON value (`None`, `False`, `0`,
`""`, `[]`, `{}` are falsy). -/
def jTruthy : Json → Bool
  | .null => false
  | .bool b => b
  | .num n => n != 0
  | .str s => s != ""
  | .arr xs => !xs.isEmpty
  | .obj kvs => !kvs.isEmpty

/-- Python `a or b`. -/
def pyOr (a b : Json) : Json := if jTruthy a then a else b

/-- Python `dict.get(k)`: the value if present, else `None`. -/
def dictGet (kvs : List (String × Json)) (k : String) : Json :=
  (kvs.lookup k).getD Json.null

/-- Python attribute access `x.get(k)`: raises `AttributeError` unless
`x` is a dict. -/
def jGetAttr (j : Json) (k : String) : Except Unit Json :=
  match j with
  | .obj kvs => .ok (dictGet kvs k)
  | _ => .error ()

/-- Python `x[0]` as used on `(data.get("choices") or [{}])`: first
element of a list, first character of a string, an error (`IndexError`
/ `KeyError` / `TypeError`) otherwise. -/
def index0 : Json → Except Unit Json
  | .arr (x :: _) => .ok x
  | .str s =>
    match s.data with
    | c :: _ => .ok (.str ⟨[c]⟩)
    | [] => .error ()
  | _ => .error ()

/-- `part.get("type") if isinstance(part, dict) else None` compared
against `("output_text", "text")`. -/
def partTypeOk (kvs : List (String × Json)) : Bool :=
  match dictGet kvs "type" with
  | .str t => t == "output_text" || t == "text"
  | _ => false

/-- The `for part in content` loop: the value assigned to
`assistant_text` at the `break`, if any part matches. -/
def findTextPart : List Json → Option Json
  | [] => none
  | p :: ps =>
    match p with
    | .obj kvs =>
      if partTypeOk kvs then some (pyOr (dictGet kvs "text") (Json.str ""))
      else findTextPart ps
    | _ => findTextPart ps

/-- The body of the `try` block extracting `assistant_text` from the
decoded upstream payload; `.error ()` models a raised exception and
propagates like one. -/
def extractCore (data : Json) : Except Unit Json :=
  match jGetAttr data "choices" with
  | .error e => .error e
  | .ok choicesRaw =>
    match index0 (pyOr choicesRaw (Json.arr [Json.obj []])) with
    | .error e => .error e
    | .ok choice =>
      match jGetAttr (pyOr choice (Json.obj [])) "message" with
      | .error e => .error e
      | .ok msgRaw =>
        match jGetAttr (pyOr msgRaw (Json.obj [])) "content" with
        | .error e => .error e
        | .ok content =>
          match content with
          | .arr parts => .ok ((findTextPart parts).getD (Json.str ""))
          | .str s => .ok (Json.str s)
          | .obj kvs => .ok ((kvs.lookup "text").getD (Json.str ""))
          | _ => .ok (Json.str "")

/-- The extraction step with its `except Exception: assistant_text = ""`
handler: total on every payload shape. -/
def extractText (data : Json) : Json :=
  match extractCore data with
  | .ok v => v
  | .error _ => Json.str ""

/-- `clean_model_text` applied to the extracted value, including its
`if not isinstance(text, str): return ""` guard. -/
def cleanJson : Json → String
  | .str s => clean_model_text s
  | _ => ""

/-! ## The `/analyze` handler -/

def MAX_BYTES : Nat := 10 * 1024 * 1024

def ALLOWED_MIME : List String := ["image/png", "image/jpeg"]

def DEFAULT_PROMPT : String :=
  "Analyze this leaf image for potential diseases and provide suggestions."

/-- `if not PERPLEXITY_API_KEY`: the key is configured iff it is set and
non-empty. -/
def keyTruthy : Option String → Bool
  | none => false
  | some s => s != ""

/-- `user_text = prompt.strip() if prompt else "Analyze this leaf …"`. -/
def resolvePrompt (prompt : String) : String :=
  if prompt ≠ "" then pyStrip prompt else DEFAULT_PROMPT

/-- Split a character list on `'/'` (like `str.split("/")`). -/
def splitSlash : List Char → List (List Char)
  | [] => [[]]
  | c :: cs =>
    let r := splitSlash cs
    if c = '/' then [] :: r
    else
      match r with
      | h :: t => (c :: h) :: t
      | [] => [[c]]

/-- Last element of a list of components, `[]` if none. -/
def lastComp : List (List Char) → List Char
  | [] => []
  | [x] => x
  | _ :: xs => lastComp xs

/-- `pathlib.Path(filename).name` on a POSIX host: split on `/`, drop
empty and `"."` components (`".."` is kept), and take the last component
(`""` when nothing remains). -/
def pathName (s : String) : String :=
  ⟨lastComp ((splitSlash s.data).filter fun c => !c.isEmpty && !(c == ['.']))⟩

/-- The upstream HTTP response as seen by the handler: status code, the
result of `resp.json()` when the body parses, and `resp.text`. -/
structure UpstreamResp where
  status : Nat
  body : Option Json
  text : String

/-- `fastapi.HTTPException`: a status code and a detail value. -/
structure HTTPError where
  status : Nat
  detail : Json

/-- The `data` object of the 200 success envelope. -/
structure ResponseData where
  filename : String
  content_type : String
  prompt : String
  model : Json
  message : String
  usage : Json
  source : String
  raw : Json

/-- Observable outcome of one `/analyze` request: the HTTP result and
the name of the file written to the uploads directory, if any. -/
structure Outcome where
  result : Except HTTPError ResponseData
  savedFile : Option String

/-- The `/analyze` handler.  Inputs: the configured API key, the
upload's declared filename / MIME type / raw bytes, the form prompt, the
request timestamp string, and the upstream HTTP response of the single
outbound call (disk faults and network faults are not modelled; the
final `except Exception` branch that turns an `AttributeError` during
envelope construction into a 500 is; its detail, `str(ex)` in the
source, is modelled by a fixed exception-name string). -/
def analyze (apiKey : Option String) (filename contentType : String)
    (content : List Nat) (prompt : String) (timestamp : String)
    (resp : UpstreamResp) : Outcome :=
  if !keyTruthy apiKey then
    ⟨.error ⟨500, .str "PERPLEXITY_API_KEY is not configured"⟩, none⟩
  else if contentType ∉ ALLOWED_MIME then
    ⟨.error ⟨400, .str "Only PNG and JPG/JPEG files are allowed."⟩, none⟩
  else if content.length > MAX_BYTES then
    ⟨.error ⟨400, .str "File too large. Max 10 MB."⟩, none⟩
  else
    let safe_name := timestamp ++ "_" ++ pathName filename
    let user_text := resolvePrompt prompt
    if resp.status ≥ 400 then
      ⟨.error ⟨resp.status,
        resp.body.getD (Json.obj [("message", Json.str resp.text)])⟩,
       some safe_name⟩
    else
      match resp.body with
      | none =>
        ⟨.error ⟨500, .str "upstream body is not valid JSON"⟩, some safe_name⟩
      | some data =>
        let assistant := cleanJson (extractText data)
        match data with
        | .obj kvs =>
          ⟨.ok { filename := filename, content_type := contentType,
                 prompt := user_text, model := dictGet kvs "model",
                 message := assistant, usage := dictGet kvs "usage",
                 source := "perplexity", raw := data },
           some safe_name⟩
        | _ =>
          ⟨.error ⟨500, .str "AttributeError"⟩, some safe_name⟩

/-- Status code of a failed result, `none` on success. -/
def resultStatus : Except HTTPError ResponseData → Option Nat
  | .error e => some e.status
  | .ok _ => none

/-! ## Lemmas about the cleanup pipeline -/

theorem removeThink_no_open {l : List Char} (h : splitTagCI openTag l = none) :
    removeThink l = l := by
  unfold removeThink
  cases l.length with
  | zero => rfl
  | succ n => simp [removeThinkAux, h]

theorem applyMeta_none {m : List Char → Option (List Char)} {l : List Char}
    (h : m l = none) : applyMeta m l = l := by
  simp [applyMeta, h]

theorem take_one_of_take_two {x y : List Char} (h : x.take 2 = y.take 2) :
    x.take 1 = y.take 1 := by
  have hx : (x.take 2).take 1 = x.take 1 := by
    rw [List.take_take]
    congr 1
  have hy : (y.take 2).take 1 = y.take 1 := by
    rw [List.take_take]
    congr 1
  rw [← hx, ← hy, h]

theorem collapseNlAux_take2 (fuel : Nat) (l : List Char) :
    (collapseNlAux fuel l).take 2 = l.take 2 := by
  induction fuel generalizing l with
  | zero => rfl
  | succ n ih =>
    cases l with
    | nil => rfl
    | cons c rest =>
      cases hcond : (c == '\n') && (rest.take 2 == ['\n', '\n']) with
      | true =>
        obtain ⟨hc, ht⟩ := Bool.and_eq_true_iff.mp hcond
        have hc' : c = '\n' := eq_of_beq hc
        have ht' : rest.take 2 = ['\n', '\n'] := eq_of_beq ht
        have h1 : rest.take 1 = ['\n'] := by
          have := take_one_of_take_two (y := ['\n', '\n']) ht'
          simpa using this
        simp only [collapseNlAux, hcond, if_true, ih]
        rw [ht', List.take_succ_cons, h1, hc']
      | false =>
        simp only [collapseNlAux, hcond, Bool.false_eq_true, if_false]
        rw [List.take_succ_cons, List.take_succ_cons,
          take_one_of_take_two (ih rest)]

theorem collapseNlAux_noTriple (fuel : Nat) (l : List Char) (hl : l.length ≤ fuel) :
    hasTriple (collapseNlAux fuel l) = false := by
  induction fuel generalizing l with
  | zero =>
    have : l = [] := List.length_eq_zero.mp (Nat.le_zero.mp hl)
    subst this; rfl
  | succ n ih =>
    cases l with
    | nil => rfl
    | cons c rest =>
      have hrest : rest.length ≤ n := by
        simp only [List.length_cons] at hl; omega
      cases hcond : (c == '\n') && (rest.take 2 == ['\n', '\n']) with
      | true =>
        simp only [collapseNlAux, hcond, if_true]
        exact ih rest hrest
      | false =>
        simp only [collapseNlAux, hcond, Bool.false_eq_true, if_false]
        simp only [hasTriple, collapseNlAux_take2, hcond, ih rest hrest,
          Bool.or_self]

theorem collapseNlAux_of_noTriple (fuel : Nat) (l : List Char)
    (h : hasTriple l = false) : collapseNlAux fuel l = l := by
  induction fuel generalizing l with
  | zero => rfl
  | succ n ih =>
    cases l with
    | nil => rfl
    | cons c rest =>
      simp only [hasTriple, Bool.or_eq_false_iff] at h
      obtain ⟨h1, h2⟩ := h
      simp only [collapseNlAux, h1, Bool.false_eq_true, if_false, ih rest h2]

theorem hasTriple_dropWhile (p : Char → Bool) (l : List Char)
    (h : hasTriple l = false) : hasTriple (l.dropWhile p) = false := by
  induction l with
  | nil => rfl
  | cons c rest ih =>
    simp only [hasTriple, Bool.or_eq_false_iff] at h
    obtain ⟨h1, h2⟩ := h
    rw [List.dropWhile_cons]
    by_cases hp : p c = true
    · rw [if_pos hp]; exact ih h2
    · rw [if_neg hp]
      simp only [hasTriple, Bool.or_eq_false_iff]
      exact ⟨h1, h2⟩

theorem hasTriple_take (l : List Char) (n : Nat) (h : hasTriple l = false) :
    hasTriple (l.take n) = false := by
  induction l generalizing n with
  | nil => simp [hasTriple]
  | cons c rest ih =>
    cases n with
    | zero => rfl
    | succ m =>
      rw [List.take_succ_cons]
      simp only [hasTriple, Bool.or_eq_false_iff] at h ⊢
      obtain ⟨h1, h2⟩ := h
      refine ⟨?_, ih m h2⟩
      cases hc : (c == '\n') with
      | false => simp
      | true =>
        simp only [hc, Bool.true_and]
        cases hm : ((rest.take m).take 2 == ['\n', '\n']) with
        | false => rfl
        | true =>
          exfalso
          have hm' : (rest.take m).take 2 = ['\n', '\n'] := eq_of_beq hm
          rw [List.take_take] at hm'
          have hlen := congrArg List.length hm'
          simp only [List.length_take, List.length_cons, List.length_nil] at hlen
          have hmin : min (min 2 m) rest.length = 2 := by omega
          have h2m : min 2 m = 2 := by omega
          rw [h2m] at hm'
          rw [hc, hm'] at h1
          simp at h1

theorem dropTrailingWs_eq_take (l : List Char) :
    ∃ k, dropTrailingWs l = l.take k := by
  induction l with
  | nil => exact ⟨0, rfl⟩
  | cons c rest ih =>
    obtain ⟨k, hk⟩ := ih
    cases hr : dropTrailingWs rest with
    | nil =>
      cases hws : isPySpace c with
      | false =>
        refine ⟨1, ?_⟩
        simp [dropTrailingWs, hr, hws]
      | true =>
        refine ⟨0, ?_⟩
        simp [dropTrailingWs, hr, hws]
    | cons d t =>
      refine ⟨k + 1, ?_⟩
      have hstep : dropTrailingWs (c :: rest) = c :: dropTrailingWs rest := by
        rw [dropTrailingWs, hr]
      rw [hstep, hk, List.take_succ_cons]

theorem dropTrailingWs_idem (l : List Char) :
    dropTrailingWs (dropTrailingWs l) = dropTrailingWs l := by
  induction l with
  | nil => rfl
  | cons c rest ih =>
    cases hr : dropTrailingWs rest with
    | nil =>
      cases hws : isPySpace c with
      | false => simp [dropTrailingWs, hr, hws]
      | true => simp [dropTrailingWs, hr, hws]
    | cons d t =>
      have hstep : dropTrailingWs (c :: rest) = c :: dropTrailingWs rest := by
        rw [dropTrailingWs, hr]
      rw [hstep]
      rw [dropTrailingWs, ih, hr]

theorem dropWhile_head_not (p : Char → Bool) (l : List Char) (c : Char)
    (t : List Char) (h : l.dropWhile p = c :: t) : p c = false := by
  induction l with
  | nil => simp at h
  | cons a rest ih =>
    rw [List.dropWhile_cons] at h
    by_cases hp : p a = true
    · rw [if_pos hp] at h; exact ih h
    · rw [if_neg hp] at h
      injection h with h1 h2
      subst h1
      simpa using hp

theorem pyStripL_idem (l : List Char) : pyStripL (pyStripL l) = pyStripL l := by
  unfold pyStripL
  have hD : (dropTrailingWs (l.dropWhile isPySpace)).dropWhile isPySpace
      = dropTrailingWs (l.dropWhile isPySpace) := by
    obtain ⟨k, hk⟩ := dropTrailingWs_eq_take (l.dropWhile isPySpace)
    rw [hk]
    cases hdw : l.dropWhile isPySpace with
    | nil => simp
    | cons d t =>
      have hd : isPySpace d = false := dropWhile_head_not _ l d t hdw
      cases k with
      | zero => simp
      | succ m =>
        rw [List.take_succ_cons, List.dropWhile_cons]
        simp [hd]
  rw [hD, dropTrailingWs_idem]

theorem hasTriple_pyStripL (l : List Char) (h : hasTriple l = false) :
    hasTriple (pyStripL l) = false := by
  unfold pyStripL
  obtain ⟨k, hk⟩ := dropTrailingWs_eq_take (l.dropWhile isPySpace)
  rw [hk]
  exact hasTriple_take _ _ (hasTriple_dropWhile _ _ h)

theorem cleanL_noTriple (l : List Char) : hasTriple (cleanL l) = false := by
  unfold cleanL collapseNl
  exact hasTriple_pyStripL _ (collapseNlAux_noTriple _ _ (Nat.le_refl _))

theorem cleanL_stripped (l : List Char) : pyStripL (cleanL l) = cleanL l := by
  unfold cleanL
  exact pyStripL_idem _

/-! ## Claim C2 (text-cleanup idempotence) -/

/-- Claim C2, counterexample: the cleanup is not idempotent.  The string
`"i should x"` is itself the output of one application of the cleanup
(to `"i should\n\ni should x"`: the third meta pattern eats only up to
the first blank line), yet cleaning it again erases it completely,
because the once-cleaned text again starts with the meta-preamble
`"i should"`. -/
theorem C2_counterexample :
    clean_model_text "i should\n\ni should x" = "i should x" ∧
    clean_model_text (clean_model_text "i should\n\ni should x") = "" ∧
    ("i should x" : String) ≠ "" := by
  refine ⟨rfl, rfl, by decide⟩

/-- Claim C2, amended: applying the cleanup a second time yields the
identical string provided the once-cleaned text contains no
(case-insensitive) `<think>` tag and none of the four meta-preamble
patterns matches it; the collapsing of newline runs and the trimming are
idempotent unconditionally, so only think-blocks or a leading
meta-preamble surviving in (or created by) the first pass can make a
second pass differ. -/
theorem C2_amended (t : String)
    (hthink : splitTagCI openTag (clean_model_text t).data = none)
    (h1 : meta1Match (clean_model_text t).data = none)
    (h2 : meta2Match (clean_model_text t).data = none)
    (h3 : meta3Match (clean_model_text t).data = none)
    (h4 : meta4Match (clean_model_text t).data = none) :
    clean_model_text (clean_model_text t) = clean_model_text t := by
  suffices h : cleanL (clean_model_text t).data = (clean_model_text t).data by
    exact congrArg String.mk h
  have hshape : (clean_model_text t).data = cleanL t.data := rfl
  calc cleanL (clean_model_text t).data
      = pyStripL (collapseNl (clean_model_text t).data) := by
        show pyStripL (collapseNl (applyMeta meta4Match (applyMeta meta3Match
          (applyMeta meta2Match (applyMeta meta1Match
            (removeThink (clean_model_text t).data)))))) =
          pyStripL (collapseNl (clean_model_text t).data)
        rw [removeThink_no_open hthink, applyMeta_none h1, applyMeta_none h2,
          applyMeta_none h3, applyMeta_none h4]
    _ = pyStripL (clean_model_text t).data := by
        rw [collapseNl, collapseNlAux_of_noTriple]
        rw [hshape]
        exact cleanL_noTriple t.data
    _ = (clean_model_text t).data := by
        rw [hshape]
        exact cleanL_stripped t.data

/-- Claim C2, witness for the amended statement at the concrete input
`"hello"`, whose cleaned form `"hello"` matches no pattern. -/
theorem C2_amended_witness :
    clean_model_text (clean_model_text "hello") = clean_model_text "hello" :=
  C2_amended "hello" rfl rfl rfl rfl rfl

/-! ## Shape lemmas for the handler -/

theorem analyze_err_shape (apiKey : Option String) (fn ct : String)
    (content : List Nat) (p ts : String) (resp : UpstreamResp)
    (hk : keyTruthy apiKey = true) (hm : ct ∈ ALLOWED_MIME)
    (hs : content.length ≤ MAX_BYTES) (hst : resp.status ≥ 400) :
    analyze apiKey fn ct content p ts resp =
      ⟨.error ⟨resp.status,
         resp.body.getD (Json.obj [("message", Json.str resp.text)])⟩,
       some (ts ++ "_" ++ pathName fn)⟩ := by
  have h3 : ¬ content.length > MAX_BYTES := by omega
  simp only [analyze, hk, Bool.not_true, Bool.false_eq_true, if_false,
    if_neg (not_not_intro hm), if_neg h3, if_pos hst]

theorem analyze_ok_shape (apiKey : Option String) (fn ct : String)
    (content : List Nat) (p ts : String) (resp : UpstreamResp)
    (hk : keyTruthy apiKey = true) (hm : ct ∈ ALLOWED_MIME)
    (hs : content.length ≤ MAX_BYTES) (hst : resp.status < 400)
    (kvs : List (String × Json)) (hb : resp.body = some (Json.obj kvs)) :
    analyze apiKey fn ct content p ts resp =
      ⟨.ok { filename := fn, content_type := ct, prompt := resolvePrompt p,
             model := dictGet kvs "model",
             message := cleanJson (extractText (Json.obj kvs)),
             usage := dictGet kvs "usage", source := "perplexity",
             raw := Json.obj kvs },
       some (ts ++ "_" ++ pathName fn)⟩ := by
  have h3 : ¬ content.length > MAX_BYTES := by omega
  have h4 : ¬ resp.status ≥ 400 := by omega
  simp only [analyze, hk, Bool.not_true, Bool.false_eq_true, if_false,
    if_neg (not_not_intro hm), if_neg h3, if_neg h4, hb]

theorem analyze_saved (apiKey : Option String) (fn ct : String)
    (content : List Nat) (p ts : String) (resp : UpstreamResp)
    (hk : keyTruthy apiKey = true) (hm : ct ∈ ALLOWED_MIME)
    (hs : content.length ≤ MAX_BYTES) :
    (analyze apiKey fn ct content p ts resp).savedFile =
      some (ts ++ "_" ++ pathName fn) := by
  have h3 : ¬ content.length > MAX_BYTES := by omega
  simp only [analyze, hk, Bool.not_true, Bool.false_eq_true, if_false,
    if_neg (not_not_intro hm), if_neg h3]
  split
  · rfl
  · split
    · rfl
    · split <;> rfl

/-! ## Claim C9 (concrete cleanup value) -/

/-- Claim C9: cleaning the exact string
`"<think>reasoning</think>Healthy leaf."` yields `"Healthy leaf."`. -/
theorem C9 :
    clean_model_text "<think>reasoning</think>Healthy leaf." = "Healthy leaf." := rfl

/-! ## Claim C1 (prompt resolution) -/

/-- Claim C1, counterexample: for the whitespace-only prompt `" "` the
handler resolves (and echoes) the empty string — `prompt` is truthy in
Python, so the default is not substituted and `strip` empties it — which
is neither the fixed default instruction nor the supplied prompt. -/
theorem C1_counterexample :
    (analyze (some "key") "leaf.png" "image/png" [1] " " "20240101T000000000000Z"
        ⟨200, some (Json.obj []), "raw"⟩).result =
      .ok { filename := "leaf.png", content_type := "image/png", prompt := "",
            model := Json.null, message := "", usage := Json.null,
            source := "perplexity", raw := Json.obj [] } ∧
    ("" : String) ≠ DEFAULT_PROMPT ∧ ("" : String) ≠ " " := by
  refine ⟨rfl, by decide, by decide⟩

/-- Claim C1, amended: the default instruction is substituted exactly
when the supplied prompt is the empty string; every other prompt
(including whitespace-only ones) resolves to the prompt with leading and
trailing whitespace stripped — so a whitespace-only prompt resolves to
`""`, not to the default — and a successful response echoes that
resolved prompt. -/
theorem C1_amended (p : String) :
    (p = "" → resolvePrompt p = DEFAULT_PROMPT) ∧
    (p ≠ "" → resolvePrompt p = pyStrip p) ∧
    (∀ (apiKey : Option String) (fn ct : String) (content : List Nat)
        (ts : String) (resp : UpstreamResp) (env : ResponseData),
      (analyze apiKey fn ct content p ts resp).result = Except.ok env →
      env.prompt = resolvePrompt p) := by
  refine ⟨fun hp => by simp [resolvePrompt, hp], fun hp => by simp [resolvePrompt, hp], ?_⟩
  intro apiKey fn ct content ts resp env h
  unfold analyze at h
  split at h
  · exact absurd h (by simp)
  split at h
  · exact absurd h (by simp)
  split at h
  · exact absurd h (by simp)
  split at h
  · exact absurd h (by simp)
  split at h
  · exact absurd h (by simp)
  split at h
  · simp only [Except.ok.injEq] at h
    subst h
    rfl
  · exact absurd h (by simp)

/-- Claim C1, witness for the amended statement: the empty prompt gets
the default, and `" x "` resolves to its stripped form. -/
theorem C1_amended_witness :
    resolvePrompt "" = DEFAULT_PROMPT ∧ resolvePrompt " x " = pyStrip " x " :=
  ⟨(C1_amended "").1 rfl, (C1_amended " x ").2.1 (by decide)⟩

/-! ## Claim C4 (upstream error mapping) -/

/-- Claim C4, counterexample: for an upstream 502 whose body does not
parse as JSON, the detail is not the raw response text itself but a JSON
object wrapping it under the key `"message"`. -/
theorem C4_counterexample :
    (analyze (some "key") "leaf.png" "image/png" [1] "p" "ts"
        ⟨502, none, "oops"⟩).result =
      .error ⟨502, Json.obj [("message", Json.str "oops")]⟩ ∧
    Json.obj [("message", Json.str "oops")] ≠ Json.str "oops" :=
  ⟨rfl, fun h => Json.noConfusion h⟩

/-- Claim C4, amended: any upstream status ≥ 400 is surfaced with the
same status code; the detail is the upstream JSON body when it parses,
and otherwise the object `{"message": raw text}` (the raw text wrapped
under a `"message"` key, not the bare text). -/
theorem C4_amended (apiKey : Option String) (fn ct : String)
    (content : List Nat) (p ts : String) (resp : UpstreamResp)
    (hk : keyTruthy apiKey = true) (hm : ct ∈ ALLOWED_MIME)
    (hs : content.length ≤ MAX_BYTES) (hst : resp.status ≥ 400) :
    (analyze apiKey fn ct content p ts resp).result =
      .error ⟨resp.status,
        resp.body.getD (Json.obj [("message", Json.str resp.text)])⟩ := by
  rw [analyze_err_shape apiKey fn ct content p ts resp hk hm hs hst]

/-- Claim C4, witness: an upstream 429 with a JSON error body yields a
429 whose detail is that body. -/
theorem C4_amended_witness :
    (analyze (some "key") "leaf.png" "image/png" [1] "p" "ts"
        ⟨429, some (Json.obj [("error", Json.str "rate limited")]), "raw"⟩).result =
      .error ⟨429, Json.obj [("error", Json.str "rate limited")]⟩ := by
  have h := C4_amended (some "key") "leaf.png" "image/png" [1] "p" "ts"
    ⟨429, some (Json.obj [("error", Json.str "rate limited")]), "raw"⟩
    (by decide) (by decide) (by decide) (by decide)
  simpa using h

/-! ## Claim C5 (success envelope echo) -/

/-- Claim C5, counterexample: for the supplied prompt `" hi "` the 200
envelope's prompt field is the stripped `"hi"`, not the prompt supplied
in the request (filename and content type are echoed verbatim). -/
theorem C5_counterexample :
    (analyze (some "key") "leaf.png" "image/png" [1] " hi " "ts"
        ⟨200, some (Json.obj []), "raw"⟩).result =
      .ok { filename := "leaf.png", content_type := "image/png", prompt := "hi",
            model := Json.null, message := "", usage := Json.null,
            source := "perplexity", raw := Json.obj [] } ∧
    ("hi" : String) ≠ " hi " := by
  refine ⟨rfl, by decide⟩

/-- Claim C5, amended: for every upload with allowed MIME type and size
within the limit, given an upstream success whose payload is a JSON
object, the handler returns a success envelope whose filename and
content_type equal those supplied and whose prompt field equals the
resolved prompt (the supplied prompt stripped of surrounding whitespace,
or the default instruction when the supplied prompt is empty). -/
theorem C5_amended (apiKey : Option String) (fn ct : String)
    (content : List Nat) (p ts : String) (st : Nat) (txt : String)
    (kvs : List (String × Json))
    (hk : keyTruthy apiKey = true) (hm : ct ∈ ALLOWED_MIME)
    (hs : content.length ≤ MAX_BYTES) (hst : st < 400) :
    (analyze apiKey fn ct content p ts ⟨st, some (Json.obj kvs), txt⟩).result =
      .ok { filename := fn, content_type := ct, prompt := resolvePrompt p,
            model := dictGet kvs "model",
            message := cleanJson (extractText (Json.obj kvs)),
            usage := dictGet kvs "usage", source := "perplexity",
            raw := Json.obj kvs } := by
  rw [analyze_ok_shape apiKey fn ct content p ts ⟨st, some (Json.obj kvs), txt⟩
    hk hm hs hst kvs rfl]

/-- Claim C5, witness at a concrete request. -/
theorem C5_amended_witness :
    (analyze (some "key") "leaf.png" "image/jpeg" [7, 7] "why" "ts"
        ⟨200, some (Json.obj [("model", Json.str "sonar-reasoning")]), "raw"⟩).result =
      .ok { filename := "leaf.png", content_type := "image/jpeg",
            prompt := resolvePrompt "why",
            model := dictGet [("model", Json.str "sonar-reasoning")] "model",
            message := cleanJson (extractText
              (Json.obj [("model", Json.str "sonar-reasoning")])),
            usage := dictGet [("model", Json.str "sonar-reasoning")] "usage",
            source := "perplexity",
            raw := Json.obj [("model", Json.str "sonar-reasoning")] } :=
  C5_amended (some "key") "leaf.png" "image/jpeg" [7, 7] "why" "ts" 200 "raw"
    [("model", Json.str "sonar-reasoning")]
    (by decide) (by decide) (by decide) (by decide)

/-! ## Claim C6 (validation order, first failure wins) -/

/-- Claim C6: validation order with first failure winning.  With no (or
an empty) credential the request fails 500 whatever the MIME type, size
or upstream behaviour; with a credential, a disallowed MIME type fails
400 whatever the size; with a credential and allowed MIME type, a size
above the limit fails 400.  In each case no file is recorded as written
(`savedFile = none`). -/
theorem C6 (apiKey : Option String) (fn ct : String) (content : List Nat)
    (p ts : String) (resp : UpstreamResp) :
    (keyTruthy apiKey = false →
      analyze apiKey fn ct content p ts resp =
        ⟨.error ⟨500, .str "PERPLEXITY_API_KEY is not configured"⟩, none⟩) ∧
    (keyTruthy apiKey = true → ct ∉ ALLOWED_MIME →
      analyze apiKey fn ct content p ts resp =
        ⟨.error ⟨400, .str "Only PNG and JPG/JPEG files are allowed."⟩, none⟩) ∧
    (keyTruthy apiKey = true → ct ∈ ALLOWED_MIME →
      content.length > MAX_BYTES →
      analyze apiKey fn ct content p ts resp =
        ⟨.error ⟨400, .str "File too large. Max 10 MB."⟩, none⟩) := by
  refine ⟨fun hk => ?_, fun hk hm => ?_, fun hk hm hs => ?_⟩
  · simp only [analyze, hk, Bool.not_false, if_true]
  · simp only [analyze, hk, Bool.not_true, Bool.false_eq_true, if_false,
      if_pos hm]
  · simp only [analyze, hk, Bool.not_true, Bool.false_eq_true, if_false,
      if_neg (not_not_intro hm), if_pos hs]

/-- Claim C6, witness: a missing key fails 500 even for a good upload; a
bad MIME type fails 400 even for an oversized body (MIME is checked
before size); an oversized body with allowed MIME fails 400. -/
theorem C6_witness :
    analyze none "a.png" "image/png" [1] "p" "ts" ⟨200, none, ""⟩ =
      ⟨.error ⟨500, .str "PERPLEXITY_API_KEY is not configured"⟩, none⟩ ∧
    analyze (some "key") "a.png" "text/plain" (List.replicate (MAX_BYTES + 1) 0)
        "p" "ts" ⟨200, none, ""⟩ =
      ⟨.error ⟨400, .str "Only PNG and JPG/JPEG files are allowed."⟩, none⟩ ∧
    analyze (some "key") "a.png" "image/png" (List.replicate (MAX_BYTES + 1) 0)
        "p" "ts" ⟨200, none, ""⟩ =
      ⟨.error ⟨400, .str "File too large. Max 10 MB."⟩, none⟩ :=
  ⟨(C6 none "a.png" "image/png" [1] "p" "ts" ⟨200, none, ""⟩).1 rfl,
   (C6 (some "key") "a.png" "text/plain" (List.replicate (MAX_BYTES + 1) 0)
      "p" "ts" ⟨200, none, ""⟩).2.1 rfl (by decide),
   (C6 (some "key") "a.png" "image/png" (List.replicate (MAX_BYTES + 1) 0)
      "p" "ts" ⟨200, none, ""⟩).2.2 rfl (by decide)
      (by simp)⟩

/-! ## Claim C7 (MIME allow-list) -/

/-- Claim C7: with a credential configured, every upload whose declared
MIME type is not exactly `image/png` or `image/jpeg` is rejected with
status 400, whatever its byte content, and nothing is written. -/
theorem C7 (apiKey : Option String) (fn ct : String) (content : List Nat)
    (p ts : String) (resp : UpstreamResp)
    (hk : keyTruthy apiKey = true) (hm : ct ∉ ALLOWED_MIME) :
    resultStatus (analyze apiKey fn ct content p ts resp).result = some 400 ∧
    (analyze apiKey fn ct content p ts resp).savedFile = none := by
  simp only [analyze, hk, Bool.not_true, Bool.false_eq_true, if_false,
    if_pos hm]
  exact ⟨rfl, trivial⟩

/-- Claim C7, witness: a GIF upload is rejected whatever its bytes. -/
theorem C7_witness :
    resultStatus (analyze (some "key") "a.gif" "image/gif" [71, 73, 70] "p" "ts"
        ⟨200, none, ""⟩).result = some 400 ∧
    (analyze (some "key") "a.gif" "image/gif" [71, 73, 70] "p" "ts"
        ⟨200, none, ""⟩).savedFile = none :=
  C7 (some "key") "a.gif" "image/gif" [71, 73, 70] "p" "ts" ⟨200, none, ""⟩
    (by decide) (by decide)

/-! ## Claim C3 (best-effort extraction) -/

theorem extractCore_content (kvs ckvs mkvs : List (String × Json))
    (rest : List Json) (c : Json)
    (h1 : kvs.lookup "choices" = some (Json.arr (Json.obj ckvs :: rest)))
    (h2 : ckvs.lookup "message" = some (Json.obj mkvs))
    (h3 : mkvs.lookup "content" = some c) :
    extractCore (Json.obj kvs) = .ok (match c with
      | .arr parts => (findTextPart parts).getD (Json.str "")
      | .str s => Json.str s
      | .obj kvs2 => (kvs2.lookup "text").getD (Json.str "")
      | _ => Json.str "") := by
  cases ckvs with
  | nil => simp at h2
  | cons a ctl =>
    cases mkvs with
    | nil => simp at h3
    | cons b mtl =>
      simp only [extractCore, jGetAttr, dictGet, h1, h2, h3, Option.getD_some,
        pyOr, jTruthy, List.isEmpty_cons, Bool.not_false, if_true, index0]
      cases c <;> rfl

/-- Claim C3, counterexample: for the upstream 200 payload `[]` (a JSON
array at top level) the extraction step itself degrades to the empty
string without raising — but the request does not succeed: building the
envelope evaluates `data.get("model")` on the non-dict payload, which
raises, and the request fails with status 500. -/
theorem C3_counterexample :
    extractText (Json.arr []) = Json.str "" ∧
    resultStatus (analyze (some "key") "leaf.png" "image/png" [1] "p" "ts"
        ⟨200, some (Json.arr []), "raw"⟩).result = some 500 :=
  ⟨rfl, rfl⟩

/-- Claim C3, amended: the extraction step never raises — a string
content is used directly; for a list content the loop takes the first
dict part whose type is `"output_text"` or `"text"` (with
`part.get("text") or ""`) and skips non-matching parts; a mapping
content yields its `"text"` field (or `""` when missing); any exception
inside the step is caught and yields `""`.  However the request as a
whole is only guaranteed to succeed when the top-level payload is a JSON
object: for a non-object payload the extraction still degrades to `""`
but the subsequent envelope construction fails the request with 500. -/
theorem C3_amended :
    (∀ (kvs ckvs mkvs : List (String × Json)) (rest : List Json) (s : String),
      kvs.lookup "choices" = some (Json.arr (Json.obj ckvs :: rest)) →
      ckvs.lookup "message" = some (Json.obj mkvs) →
      mkvs.lookup "content" = some (Json.str s) →
      extractText (Json.obj kvs) = Json.str s) ∧
    (∀ (kvs ckvs mkvs : List (String × Json)) (rest parts : List Json),
      kvs.lookup "choices" = some (Json.arr (Json.obj ckvs :: rest)) →
      ckvs.lookup "message" = some (Json.obj mkvs) →
      mkvs.lookup "content" = some (Json.arr parts) →
      extractText (Json.obj kvs) = (findTextPart parts).getD (Json.str "")) ∧
    (∀ (pkvs : List (String × Json)) (ps : List Json) (t : String),
      pkvs.lookup "type" = some (Json.str t) →
      (t = "output_text" ∨ t = "text") →
      findTextPart (Json.obj pkvs :: ps) =
        some (pyOr (dictGet pkvs "text") (Json.str ""))) ∧
    (∀ (pkvs : List (String × Json)) (ps : List Json),
      partTypeOk pkvs = false →
      findTextPart (Json.obj pkvs :: ps) = findTextPart ps) ∧
    (∀ (kvs ckvs mkvs ckvs2 : List (String × Json)) (rest : List Json),
      kvs.lookup "choices" = some (Json.arr (Json.obj ckvs :: rest)) →
      ckvs.lookup "message" = some (Json.obj mkvs) →
      mkvs.lookup "content" = some (Json.obj ckvs2) →
      extractText (Json.obj kvs) = (ckvs2.lookup "text").getD (Json.str "")) ∧
    (∀ data : Json,
      extractCore data = Except.error () → extractText data = Json.str "") ∧
    (∀ (apiKey : Option String) (fn ct : String) (content : List Nat)
        (p ts txt : String) (st : Nat) (kvs : List (String × Json)),
      keyTruthy apiKey = true → ct ∈ ALLOWED_MIME →
      content.length ≤ MAX_BYTES → st < 400 →
      resultStatus (analyze apiKey fn ct content p ts
        ⟨st, some (Json.obj kvs), txt⟩).result = none) := by
  refine ⟨?_, ?_, ?_, ?_, ?_, ?_, ?_⟩
  · intro kvs ckvs mkvs rest s h1 h2 h3
    rw [extractText, extractCore_content kvs ckvs mkvs rest (Json.str s) h1 h2 h3]
  · intro kvs ckvs mkvs rest parts h1 h2 h3
    rw [extractText, extractCore_content kvs ckvs mkvs rest (Json.arr parts) h1 h2 h3]
  · intro pkvs ps t h hd
    have hok : partTypeOk pkvs = true := by
      rcases hd with rfl | rfl <;> simp [partTypeOk, dictGet, h]
    simp [findTextPart, hok]
  · intro pkvs ps h
    simp [findTextPart, h]
  · intro kvs ckvs mkvs ckvs2 rest h1 h2 h3
    rw [extractText, extractCore_content kvs ckvs mkvs rest (Json.obj ckvs2) h1 h2 h3]
  · intro data h
    rw [extractText, h]
  · intro apiKey fn ct content p ts txt st kvs hk hm hs hst
    rw [analyze_ok_shape apiKey fn ct content p ts ⟨st, some (Json.obj kvs), txt⟩
      hk hm hs hst kvs rfl]
    rfl

/-- Claim C3, witness for the amended statement: a well-shaped string
payload extracts to that string, and a request with an object payload
succeeds. -/
theorem C3_amended_witness :
    extractText (Json.obj [("choices", Json.arr [Json.obj [("message",
        Json.obj [("content", Json.str "Healthy")])]])]) = Json.str "Healthy" ∧
    resultStatus (analyze (some "key") "leaf.png" "image/png" [1] "p" "ts"
        ⟨200, some (Json.obj []), "raw"⟩).result = none :=
  ⟨C3_amended.1
      [("choices", Json.arr [Json.obj [("message",
        Json.obj [("content", Json.str "Healthy")])]])]
      [("message", Json.obj [("content", Json.str "Healthy")])]
      [("content", Json.str "Healthy")] [] "Healthy" rfl rfl rfl,
   C3_amended.2.2.2.2.2.2 (some "key") "leaf.png" "image/png" [1] "p" "ts"
      "raw" 200 [] (by decide) (by decide) (by decide) (by decide)⟩

/-! ## Claim C8 (size limit) -/

/-- Claim C8: with a credential and an allowed MIME type, a body of more
than `MAX_BYTES = 10 * 1024 * 1024` bytes (i.e. at least 10 MiB + 1) is
rejected with 400 before anything is written, while a body of at most
10 MiB passes the size check — the upload is then saved, which in the
handler happens strictly after the size check. -/
theorem C8 (apiKey : Option String) (fn ct : String) (content : List Nat)
    (p ts : String) (resp : UpstreamResp)
    (hk : keyTruthy apiKey = true) (hm : ct ∈ ALLOWED_MIME) :
    (content.length > MAX_BYTES →
      analyze apiKey fn ct content p ts resp =
        ⟨.error ⟨400, .str "File too large. Max 10 MB."⟩, none⟩) ∧
    (content.length ≤ MAX_BYTES →
      (analyze apiKey fn ct content p ts resp).savedFile =
        some (ts ++ "_" ++ pathName fn)) ∧
    MAX_BYTES = 10 * 1024 * 1024 := by
  refine ⟨fun hs => ?_, fun hs => ?_, rfl⟩
  · simp only [analyze, hk, Bool.not_true, Bool.false_eq_true, if_false,
      if_neg (not_not_intro hm), if_pos hs]
  · exact analyze_saved apiKey fn ct content p ts resp hk hm hs

/-- Claim C8, witness: a 10 MiB + 1 body is rejected, a one-byte body is
saved. -/
theorem C8_witness :
    analyze (some "key") "a.png" "image/png" (List.replicate (MAX_BYTES + 1) 0)
        "p" "ts" ⟨200, none, ""⟩ =
      ⟨.error ⟨400, .str "File too large. Max 10 MB."⟩, none⟩ ∧
    (analyze (some "key") "a.png" "image/png" [0] "p" "ts"
        ⟨200, none, ""⟩).savedFile = some ("ts" ++ "_" ++ pathName "a.png") :=
  ⟨(C8 (some "key") "a.png" "image/png" (List.replicate (MAX_BYTES + 1) 0)
      "p" "ts" ⟨200, none, ""⟩ (by decide) (by decide)).1
      (by simp),
   (C8 (some "key") "a.png" "image/png" [0] "p" "ts" ⟨200, none, ""⟩
      (by decide) (by decide)).2.1 (by decide)⟩

/-! ## Claim C10 (safe filename derivation) -/

theorem splitSlash_no_slash (l : List Char) (comp : List Char)
    (h : comp ∈ splitSlash l) : '/' ∉ comp := by
  induction l generalizing comp with
  | nil =>
    simp only [splitSlash, List.mem_singleton] at h
    subst h
    simp
  | cons c cs ih =>
    by_cases hc : c = '/'
    · simp only [splitSlash, if_pos hc] at h
      rcases List.mem_cons.mp h with h1 | h2
      · subst h1; simp
      · exact ih comp h2
    · cases hr : splitSlash cs with
      | nil =>
        simp only [splitSlash, if_neg hc, hr, List.mem_singleton] at h
        subst h
        simp only [List.mem_singleton]
        exact fun hx => hc hx.symm
      | cons hcomp tl =>
        simp only [splitSlash, if_neg hc, hr] at h
        rcases List.mem_cons.mp h with h1 | h2
        · subst h1
          intro hmem
          rcases List.mem_cons.mp hmem with h3 | h4
          · exact hc h3.symm
          · exact ih hcomp (by rw [hr]; exact List.mem_cons_self _ _) h4
        · exact ih comp (by rw [hr]; exact List.mem_cons.mpr (Or.inr h2))

theorem lastComp_mem (xs : List (List Char)) :
    lastComp xs = [] ∨ lastComp xs ∈ xs := by
  induction xs with
  | nil => exact Or.inl rfl
  | cons x tl ih =>
    cases tl with
    | nil => exact Or.inr (List.mem_singleton.mpr rfl)
    | cons y tl2 =>
      rcases ih with h | h
      · left
        simp only [lastComp]
        exact h
      · right
        simp only [lastComp]
        exact List.mem_cons.mpr (Or.inr h)

theorem pathName_no_slash (s : String) : '/' ∉ (pathName s).data := by
  show '/' ∉ lastComp ((splitSlash s.data).filter
    fun c => !c.isEmpty && !(c == ['.']))
  rcases lastComp_mem ((splitSlash s.data).filter
      fun c => !c.isEmpty && !(c == ['.'])) with h | h
  · rw [h]; simp
  · exact splitSlash_no_slash s.data _ (List.mem_filter.mp h).1

/-- Claim C10: whenever the handler writes a file, the written name is
the timestamp joined by `"_"` to `pathlib`'s final path component of the
client-supplied filename; that component never contains a separator, so
(for a separator-free timestamp) the full name contains no `/` and is
neither `"."` nor `".."` — it cannot escape the uploads directory. -/
theorem C10 (apiKey : Option String) (fn ct : String) (content : List Nat)
    (p ts : String) (resp : UpstreamResp) (name : String)
    (h : (analyze apiKey fn ct content p ts resp).savedFile = some name) :
    name = ts ++ "_" ++ pathName fn ∧
    '/' ∉ (pathName fn).data ∧
    ('/' ∉ ts.data → '/' ∉ name.data ∧ name ≠ "." ∧ name ≠ "..") := by
  have hname : name = ts ++ "_" ++ pathName fn := by
    unfold analyze at h
    repeat' split at h
    all_goals simp only [Option.some.injEq] at h
    all_goals first
      | exact h.symm
      | exact absurd h (by simp)
  subst hname
  refine ⟨rfl, pathName_no_slash fn, fun hts => ⟨?_, ?_, ?_⟩⟩
  · rw [String.data_append, String.data_append]
    intro hmem
    rcases List.mem_append.mp hmem with h1 | h2
    · rcases List.mem_append.mp h1 with ha | hb
      · exact hts ha
      · exact absurd hb (by decide)
    · exact pathName_no_slash fn h2
  · intro heq
    have hu : '_' ∈ (ts ++ "_" ++ pathName fn).data := by
      rw [String.data_append, String.data_append]
      exact List.mem_append.mpr (Or.inl (List.mem_append.mpr (Or.inr (by decide))))
    rw [heq] at hu
    exact absurd hu (by decide)
  · intro heq
    have hu : '_' ∈ (ts ++ "_" ++ pathName fn).data := by
      rw [String.data_append, String.data_append]
      exact List.mem_append.mpr (Or.inl (List.mem_append.mpr (Or.inr (by decide))))
    rw [heq] at hu
    exact absurd hu (by decide)

/-- Claim C10, witness: a traversal-style filename `"../../etc/x.png"`
is reduced to its final component `"x.png"`, giving the saved name
`"TS_x.png"`. -/
theorem C10_witness :
    ("TS_x.png" : String) = "TS" ++ "_" ++ pathName "../../etc/x.png" ∧
    '/' ∉ (pathName "../../etc/x.png").data ∧
    ('/' ∉ ("TS" : String).data →
      '/' ∉ ("TS_x.png" : String).data ∧ ("TS_x.png" : String) ≠ "." ∧
      ("TS_x.png" : String) ≠ "..") :=
  C10 (some "key") "../../etc/x.png" "image/png" [1] "p" "TS"
    ⟨200, some (Json.obj []), "raw"⟩ "TS_x.png" rfl

end LeafAI
